import Mathlib

/-!
Verification development for the go-nfe-validator repository.

Go strings are modelled as lists of characters (runes); wherever the Go code
takes the byte length of a string (len), the model uses the UTF-8 byte length
of the character list, so that the length checks agree with Go on every input.
Byte-level indexing (chave[i]) in the check-digit routine is modelled at the
character level; the two agree on all-ASCII strings, which is the only kind of
string that reaches the digit arithmetic (the callers reject non-digit
characters first, and the standalone guard compares the byte length).
-/

namespace GoStr

/-- Converts a Lean string literal to the character-list model of a Go string. -/
def str (s : String) : List Char := s.toList

/-- UTF-8 encoded size in bytes of one character, as Go computes it. -/
def charSize (c : Char) : Nat :=
  if c.toNat < 128 then 1
  else if c.toNat < 2048 then 2
  else if c.toNat < 65536 then 3
  else 4

/-- Byte length of a Go string (len s in Go). -/
def goLen (s : List Char) : Nat := (s.map charSize).sum

/-- Model of unicode.IsSpace from the Go standard library: the White_Space
code points (the rune classes trimmed by strings.TrimSpace). -/
def goIsSpace (c : Char) : Bool :=
  let n := c.toNat
  decide (n = 9 ∨ n = 10 ∨ n = 11 ∨ n = 12 ∨ n = 13 ∨ n = 32 ∨
    n = 0x85 ∨ n = 0xA0 ∨ n = 0x1680 ∨ (0x2000 ≤ n ∧ n ≤ 0x200A) ∨
    n = 0x2028 ∨ n = 0x2029 ∨ n = 0x202F ∨ n = 0x205F ∨ n = 0x3000)

/-- Model of strings.TrimSpace: drop leading and trailing white space runes. -/
def trimSpace (s : List Char) : List Char :=
  ((s.dropWhile goIsSpace).reverse.dropWhile goIsSpace).reverse

/-- Character is an ASCII digit (the test c >= zero and c <= nine in Go). -/
def isDigitCh (c : Char) : Bool := decide (48 ≤ c.toNat ∧ c.toNat ≤ 57)

/-- Models the Go expression int(b - zeroByte) on a byte b: uint8 subtraction
wraps modulo 256 before the conversion to int. -/
def dgByte (c : Char) : Nat := (c.toNat + 208) % 256

/-- Numeric value of an ASCII digit character (spec-side description). -/
def digitVal (c : Char) : Nat := c.toNat - 48

end GoStr

open GoStr

namespace NfePkg

/-!
Embedding of pkg/nfe/parser.go: access-key validation (ValidarChaveAcesso and
validarDigitoVerificador) and key extraction (ExtractChaveFromID, OnlyDigits).
-/

/-- Loop body of validarDigitoVerificador (pkg/nfe/parser.go lines 216 to 227):
the list argument is the base scanned right to left, the accumulator carries
multiplicador and soma. -/
def somaLoop : List Char → Nat → Nat → Nat
  | [], _, soma => soma
  | c :: rest, mult, soma =>
      somaLoop rest (if mult + 1 > 9 then 2 else mult + 1) (soma + dgByte c * mult)

/-- Embedding of validarDigitoVerificador (pkg/nfe/parser.go lines 206 to 238). -/
def validarDigitoVerificador (chave : List Char) : Bool :=
  if goLen chave ≠ 44 then false
  else
    let base := chave.take 43
    let dv := chave.getD 43 ' '
    let soma := somaLoop base.reverse 2 0
    let resto := soma % 11
    let dvCalculado := if resto = 0 ∨ resto = 1 then 0 else 11 - resto
    dvCalculado == dgByte dv

/-- Error cases of ValidarChaveAcesso, one constructor per distinct message. -/
inductive KeyErr where
  | tamanho (n : Nat)
  | naoNumerica
  | dvInvalido
deriving DecidableEq

/-- Embedding of ValidarChaveAcesso (pkg/nfe/parser.go lines 181 to 203). -/
def ValidarChaveAcesso (chave : List Char) : Except KeyErr Unit :=
  let c := trimSpace chave
  if goLen c ≠ 44 then .error (.tamanho (goLen c))
  else if c.any (fun ch => !isDigitCh ch) then .error .naoNumerica
  else if !validarDigitoVerificador c then .error .dvInvalido
  else .ok ()

/-- Embedding of ExtractChaveFromID (pkg/nfe/parser.go lines 120 to 130): the
Go code first reassigns id to its trimmed form, then tests the NFe text at the
front together with byte length 47, then byte length 44. -/
def ExtractChaveFromID (id : List Char) : List Char :=
  if (str "NFe").isPrefixOf (trimSpace id) ∧ goLen (trimSpace id) = 47 then
    (trimSpace id).drop 3
  else if goLen (trimSpace id) = 44 then trimSpace id
  else []

/-- Embedding of OnlyDigits (pkg/nfe/parser.go lines 140 to 148). -/
def OnlyDigits (s : List Char) : List Char := s.filter isDigitCh

end NfePkg

namespace Validation

/-!
Embedding of internal/validation/helpers.go (the same file also appears as
src/unnamed/part_005): this version of ExtractChaveFromID has no
length-44 branch and returns the empty string for every input that is not the
NFe text followed by 44 further characters.
-/

/-- Embedding of ExtractChaveFromID (internal/validation/helpers.go lines 8 to 14). -/
def ExtractChaveFromID (id : List Char) : List Char :=
  if (str "NFe").isPrefixOf (trimSpace id) ∧ goLen (trimSpace id) = 47 then
    (trimSpace id).drop 3
  else []

/-- Embedding of OnlyDigits (internal/validation/helpers.go lines 17 to 25). -/
def OnlyDigits (s : List Char) : List Char := s.filter isDigitCh

/-- Embedding of ChooseFirstNonEmpty (internal/validation/helpers.go lines 28
to 35). -/
def ChooseFirstNonEmpty : List (List Char) → List Char
  | [] => []
  | v :: rest => if trimSpace v ≠ [] then v else ChooseFirstNonEmpty rest

end Validation

namespace SpecAlg

/-!
Spec-side description of the modulo-11 check-digit algorithm, written from the
words of the specification (section 4.1): scanning right to left, weight 2 plus
the scan position modulo 8, which realises the cycle 2..9 that starts at 2,
increments after each digit and wraps back to 2 whenever it would exceed 9.
-/

/-- Weighted sum of the spec algorithm: the list is the base already reversed
(right to left), j counts digits processed so far. -/
def pesoSum : List Char → Nat → Nat
  | [], _ => 0
  | c :: rest, j => digitVal c * (2 + j % 8) + pesoSum rest (j + 1)

/-- Expected check digit per the spec: remainder of the weighted sum modulo 11,
expected digit 0 when the remainder is 0 or 1, else 11 minus the remainder. -/
def specCheckDigit (base : List Char) : Nat :=
  let soma := pesoSum base.reverse 0
  let resto := soma % 11
  if resto = 0 ∨ resto = 1 then 0 else 11 - resto

end SpecAlg

namespace NfePkg

/-!
Embedding of pkg/nfe/types.go: StatusSefaz with its status constants and the
category predicates (lines 136 to 195).
-/

/-- StatusSefaz record (pkg/nfe/types.go lines 32 to 43). -/
structure StatusSefaz where
  Codigo : List Char
  Mensagem : List Char
deriving DecidableEq

/-- Constant cStat 100 (pkg/nfe/types.go line 138). -/
def StatusAutorizado : List Char := str "100"

/-- Constant cStat 101 (pkg/nfe/types.go line 141). -/
def StatusCancelado : List Char := str "101"

/-- Constant cStat 110 (pkg/nfe/types.go line 145). -/
def StatusDenegado : List Char := str "110"

/-- Constant cStat 102 (pkg/nfe/types.go line 148). -/
def StatusInutilizado : List Char := str "102"

/-- Constant cStat 217 (pkg/nfe/types.go line 151). -/
def StatusNaoEncontrado : List Char := str "217"

/-- Embedding of StatusSefaz.IsAutorizado (pkg/nfe/types.go lines 162 to 164). -/
def StatusSefaz.IsAutorizado (s : StatusSefaz) : Bool := s.Codigo == StatusAutorizado

/-- Embedding of StatusSefaz.IsCancelado (pkg/nfe/types.go lines 167 to 169). -/
def StatusSefaz.IsCancelado (s : StatusSefaz) : Bool := s.Codigo == StatusCancelado

/-- Embedding of StatusSefaz.IsDenegado (pkg/nfe/types.go lines 172 to 174). -/
def StatusSefaz.IsDenegado (s : StatusSefaz) : Bool := s.Codigo == StatusDenegado

/-- Embedding of StatusSefaz.IsNaoEncontrado (pkg/nfe/types.go lines 177 to 179). -/
def StatusSefaz.IsNaoEncontrado (s : StatusSefaz) : Bool := s.Codigo == StatusNaoEncontrado

/-- Embedding of StatusSefaz.IsRejeitado (pkg/nfe/types.go lines 183 to 189):
the first byte of the code is compared against the bytes of the characters 2
and 6 (code points 50 and 54); on the empty code it returns false. The first
byte of a UTF-8 string lies in that range exactly when its first character
does, so the character-level model agrees with Go on every input. -/
def StatusSefaz.IsRejeitado (s : StatusSefaz) : Bool :=
  match s.Codigo with
  | [] => false
  | first :: _ => decide (50 ≤ first.toNat ∧ first.toNat ≤ 54)

/-- Embedding of StatusSefaz.IsValido (pkg/nfe/types.go lines 193 to 195). -/
def StatusSefaz.IsValido (s : StatusSefaz) : Bool := s.IsAutorizado || s.IsCancelado

end NfePkg

namespace Sefaz

/-!
Embedding of the pure response-decoding part of internal/sefaz (source file
src/unnamed/part_003): the two regular expressions of lines 21 and 22,
the tolerant substring fallback, the sentinel defaults and the authorized
classification of ConsultaSituacaoNFe (lines 142 to 179).
-/

/-- SefazStatus record (internal/validation types, src/unnamed/part_005). -/
structure SefazStatus where
  Autorizado : Bool := false
  Codigo : List Char := []
  Mensagem : List Char := []
deriving DecidableEq

/-- Model of strings.Contains: some suffix of s starts with pat. -/
def containsSub (s pat : List Char) : Bool :=
  s.tails.any (fun t => pat.isPrefixOf t)

/-- Match of the regular expression for cStat anchored at the start of s:
the cStat opening marker, then a non-empty maximal digit run, then the closing
marker. A shorter (backtracked) digit run would be followed by a digit and can
never be followed by the closing marker, so the maximal run is the one
submatch the regex engine can return here. -/
def cStatAt (s : List Char) : Option (List Char) :=
  if (str "<cStat>").isPrefixOf s then
    let rest := s.drop 7
    let run := rest.takeWhile isDigitCh
    if run ≠ [] ∧ (str "</cStat>").isPrefixOf (rest.drop run.length) then some run
    else none
  else none

/-- Leftmost match of the cStat regular expression (FindStringSubmatch). -/
def findCStat : List Char → Option (List Char)
  | [] => none
  | c :: rest =>
    match cStatAt (c :: rest) with
    | some r => some r
    | none => findCStat rest

/-- Lazy scan for the non-greedy dot-star of the xMotivo regular expression:
collect characters until the closing marker, failing on a newline (the dot of
the Go regexp package does not match a newline) or at the end of input. -/
def xMotivoScan : List Char → Option (List Char)
  | [] => none
  | c :: rest =>
    if (str "</xMotivo>").isPrefixOf (c :: rest) then some []
    else if c = '\n' then none
    else (xMotivoScan rest).map (fun m => c :: m)

/-- Match of the xMotivo regular expression anchored at the start of s. -/
def xMotivoAt (s : List Char) : Option (List Char) :=
  if (str "<xMotivo>").isPrefixOf s then xMotivoScan (s.drop 9) else none

/-- Leftmost match of the xMotivo regular expression (FindStringSubmatch). -/
def findXMotivo : List Char → Option (List Char)
  | [] => none
  | c :: rest =>
    match xMotivoAt (c :: rest) with
    | some r => some r
    | none => findXMotivo rest

/-- Model of strings.Split for a non-empty separator: cut the string at every
non-overlapping occurrence of pat, scanning left to right. -/
def splitGo (pat : List Char) : List Char → List (List Char)
  | [] => [[]]
  | c :: rest =>
    if pat ≠ [] ∧ pat.isPrefixOf (c :: rest) then
      [] :: splitGo pat ((c :: rest).drop pat.length)
    else
      match splitGo pat rest with
      | [] => [[c]]
      | seg :: segs => (c :: seg) :: segs
termination_by s => s.length
decreasing_by
  · rename_i h
    have hp : pat.length ≥ 1 := by
      cases pat with
      | nil => exact absurd rfl h.1
      | cons p pt => simp
    simp [List.length_drop]
    omega
  · simp

/-- Decoding and classification of the SEFAZ response body: the pure tail of
ConsultaSituacaoNFe (src/unnamed/part_003 lines 142 to 179), applied to
the response body already read. -/
def decodeResposta (bodyStr : List Char) : SefazStatus :=
  let cStatMatch := findCStat bodyStr
  let xMotivoMatch := findXMotivo bodyStr
  let cStat := match cStatMatch with
    | some m => m
    | none => str "999"
  let xMotivo := match xMotivoMatch with
    | some m => m
    | none =>
      if containsSub bodyStr (str "<xMotivo>") then
        let parts := splitGo (str "<xMotivo>") bodyStr
        if parts.length > 1 then (splitGo (str "</xMotivo>") (parts.getD 1 [])).getD 0 []
        else str "Resposta da SEFAZ não parseada."
      else str "Resposta da SEFAZ não parseada."
  let autorizado :=
    if cStat = str "100" ∨ cStat = str "110" then true
    else if cStat = str "101" then false
    else false
  { Autorizado := autorizado, Codigo := cStat, Mensagem := xMotivo }

end Sefaz

namespace Validation

/-!
Embedding of the XML document model (internal/validation types, also
pkg/nfe/types.go) and of ParseNFe (src/unnamed/part_004, identical to the
copy in src/unnamed/part_005; pkg/nfe/parser.go lines 67 to 86 has the
same control flow with re-worded error messages). The outcomes of
encoding/xml.Unmarshal on the given bytes against the two target shapes are
abstracted as an oracle pair carried by XmlInput: the Go xml decoder is
external library code, and ParseNFe only branches on whether each decode
reports a structural error and on the decoded identifier attribute.
-/

/-- Ide record (internal/validation types). -/
structure Ide where
  Modelo : List Char
  Serie : List Char
  NumNf : List Char
deriving DecidableEq

/-- Emit record (internal/validation types). -/
structure Emit where
  CNPJ : List Char
  XNome : List Char
deriving DecidableEq

/-- Dest record (internal/validation types). -/
structure Dest where
  CNPJ : List Char
  CPF : List Char
  XNome : List Char
deriving DecidableEq

/-- ICMSTot record (internal/validation types). -/
structure ICMSTot where
  VNF : List Char
deriving DecidableEq

/-- Total record (internal/validation types). -/
structure Total where
  ICMSTot : ICMSTot
deriving DecidableEq

/-- InfNFe record (internal/validation types). -/
structure InfNFe where
  ID : List Char
  Ide : Ide
  Emit : Emit
  Dest : Dest
  Total : Total
deriving DecidableEq

/-- NFeEnvelope record (internal/validation types). -/
structure NFeEnvelope where
  InfNFe : InfNFe
deriving DecidableEq

/-- ProcNFe record (internal/validation types). -/
structure ProcNFe where
  NFe : NFeEnvelope
deriving DecidableEq

/-- Structural errors an xml.Unmarshal call can report; rootMismatch stands
for the documented behaviour of encoding/xml of rejecting a document whose
root element name differs from the XMLName of the target struct. -/
inductive DecodeErr where
  | rootMismatch
  | syntaxErr
deriving DecidableEq

/-- Oracle pair giving the outcome of xml.Unmarshal on one byte input for the
two target shapes tried by ParseNFe. -/
structure XmlInput where
  decodeProc : Except DecodeErr ProcNFe
  decodeNFe : Except DecodeErr NFeEnvelope

/-- Error cases of ParseNFe: a wrapped structural decode error, or the
missing-identifier message. -/
inductive ParseError where
  | malformed (e : DecodeErr)
  | missingIdentifier
deriving DecidableEq

/-- Second attempt of ParseNFe (src/unnamed/part_004 lines 16 to 24):
decode as bare NFe, fail on a structural error, fail on an empty identifier. -/
def parseNFeBare (inp : XmlInput) : Except ParseError NFeEnvelope :=
  match inp.decodeNFe with
  | .error e => .error (.malformed e)
  | .ok nfe => if nfe.InfNFe.ID = [] then .error .missingIdentifier else .ok nfe

/-- Embedding of ParseNFe (src/unnamed/part_004 lines 9 to 25): the enveloped
attempt wins only when its decode succeeds and the inner identifier is
non-empty, otherwise the bare attempt runs. -/
def ParseNFe (inp : XmlInput) : Except ParseError NFeEnvelope :=
  match inp.decodeProc with
  | .ok proc => if proc.NFe.InfNFe.ID ≠ [] then .ok proc.NFe else parseNFeBare inp
  | .error _ => parseNFeBare inp

/-- The enveloped attempt is rejected: the enveloped decode reports an error,
or it succeeds with an empty inner identifier. -/
def envelopedRejected (inp : XmlInput) : Prop :=
  (∃ e, inp.decodeProc = .error e) ∨
    (∃ proc, inp.decodeProc = .ok proc ∧ proc.NFe.InfNFe.ID = [])

end Validation

namespace NfePkg

/-!
Embedding of the validation pipeline of pkg/nfe/client.go. The three external
effects are oracles: the XSD check outcome, the xml decode outcomes, and the
SEFAZ query as a function from the key sent to the outcome. Each pipeline
function returns, next to the ValidationResult of the source, a ghost trace
component recording the key passed to ConsultaSituacaoNFe, or none when no
remote query was made; the trace makes the fact of the remote call and its
argument observable in the model.
-/

/-- Empresa record (pkg/nfe/types.go lines 67 to 73). -/
structure Empresa where
  Documento : List Char
  Nome : List Char
deriving DecidableEq

/-- DadosNFe record (pkg/nfe/types.go lines 46 to 64). -/
structure DadosNFe where
  Modelo : List Char
  Serie : List Char
  Numero : List Char
  Emitente : Empresa
  Destinatario : Empresa
  ValorTotal : List Char
deriving DecidableEq

/-- Error slots of the pipeline result, one constructor per wrapped source. -/
inductive ErrKind where
  | falhaXSD
  | falhaParse (e : Validation.ParseError)
  | falhaConsultaSefaz
deriving DecidableEq

/-- ValidationResult record (pkg/nfe/types.go lines 10 to 29); the defaults
are the Go zero values of the fields. -/
structure ValidationResult where
  ChaveAcesso : List Char := []
  ValidoXSD : Bool := false
  Autorizado : Bool := false
  Status : StatusSefaz := ⟨[], []⟩
  DadosNFe : Option DadosNFe := none
  Erro : Option ErrKind := none
deriving DecidableEq

/-- Embedding of convertInternalNFeData (pkg/nfe/client.go lines 268 to 283). -/
def convertInternalNFeData (nfe : Validation.NFeEnvelope) : DadosNFe :=
  { Modelo := nfe.InfNFe.Ide.Modelo
    Serie := nfe.InfNFe.Ide.Serie
    Numero := nfe.InfNFe.Ide.NumNf
    Emitente := ⟨nfe.InfNFe.Emit.CNPJ, nfe.InfNFe.Emit.XNome⟩
    Destinatario := ⟨Validation.ChooseFirstNonEmpty [nfe.InfNFe.Dest.CNPJ, nfe.InfNFe.Dest.CPF],
      nfe.InfNFe.Dest.XNome⟩
    ValorTotal := nfe.InfNFe.Total.ICMSTot.VNF }

/-- Outcome of the external XSD schema checker. -/
inductive XsdErr where
  | violation
deriving DecidableEq

/-- Outcome of a failed remote call (request, connection or body read). -/
inductive RedeErr where
  | falhaConexao
deriving DecidableEq

/-- Oracle bundle for one run of the pipeline on one fixed byte input. -/
structure PipelineEnv where
  xsd : Except XsdErr Unit
  xml : Validation.XmlInput
  sefaz : List Char → Except RedeErr Sefaz.SefazStatus

/-- Embedding of Client.ValidarXMLBytes (pkg/nfe/client.go lines 181 to 226);
Client.ValidarXML (lines 121 to 171) is the same pipeline after a file read.
The second component is the ghost trace of the key sent to the SEFAZ query. -/
def ValidarXMLBytes (env : PipelineEnv) : ValidationResult × Option (List Char) :=
  match env.xsd with
  | .error _ => ({ ValidoXSD := false, Erro := some .falhaXSD }, none)
  | .ok _ =>
    match Validation.ParseNFe env.xml with
    | .error e => ({ ValidoXSD := true, Erro := some (.falhaParse e) }, none)
    | .ok nfe =>
      let chave0 := Validation.ExtractChaveFromID nfe.InfNFe.ID
      let chave := if chave0 = [] then nfe.InfNFe.ID else chave0
      match env.sefaz chave with
      | .error _ =>
        ({ ValidoXSD := true
           ChaveAcesso := chave
           DadosNFe := some (convertInternalNFeData nfe)
           Erro := some .falhaConsultaSefaz }, some chave)
      | .ok status =>
        ({ ValidoXSD := true
           ChaveAcesso := chave
           Autorizado := status.Autorizado
           Status := ⟨status.Codigo, status.Mensagem⟩
           DadosNFe := some (convertInternalNFeData nfe) }, some chave)

/-- Error of Client.ValidarChave before any remote query. -/
inductive ChaveErr where
  | formatoInvalido
deriving DecidableEq

/-- Embedding of Client.ValidarChave (pkg/nfe/client.go lines 241 to 265);
the second component is the ghost trace of the key sent to the SEFAZ query. -/
def ValidarChave (sefaz : List Char → Except RedeErr Sefaz.SefazStatus)
    (chave : List Char) : Except ChaveErr ValidationResult × Option (List Char) :=
  if goLen (Validation.OnlyDigits chave) ≠ 44 then (.error .formatoInvalido, none)
  else
    match sefaz chave with
    | .error _ => (.ok { ChaveAcesso := chave, Erro := some .falhaConsultaSefaz }, some chave)
    | .ok status =>
      (.ok { ChaveAcesso := chave
             ValidoXSD := false
             Autorizado := status.Autorizado
             Status := ⟨status.Codigo, status.Mensagem⟩ }, some chave)

end NfePkg

/-- Sample inner document used by the concrete pipeline runs. -/
def sampleInfNFe (id : List Char) : Validation.InfNFe :=
  { ID := id
    Ide := ⟨str "55", str "1", str "37471"⟩
    Emit := ⟨str "32409620000175", str "Empresa Emitente"⟩
    Dest := ⟨str "", str "", str "Cliente"⟩
    Total := ⟨⟨str "100.00"⟩⟩ }

/-- Concrete input of an enveloped document with a well-filled identifier;
the bare decode rejects the outer root element. -/
def c4Inp : Validation.XmlInput :=
  { decodeProc := .ok ⟨⟨sampleInfNFe (str "NFe35250732409620000175550010000037471011544648")⟩⟩
    decodeNFe := .error .rootMismatch }

/-- Concrete input modelling a document whose identifier attribute is present
but empty, given in the enveloped shape: the enveloped decode succeeds with an
empty inner identifier, and the bare decode fails because encoding/xml rejects
the outer wrapper root element as the bare target shape. -/
def c9Inp : Validation.XmlInput :=
  { decodeProc := .ok ⟨⟨sampleInfNFe (str "")⟩⟩
    decodeNFe := .error .rootMismatch }

/-- Concrete pipeline run: good schema, good enveloped parse, remote failure. -/
def c5Env : NfePkg.PipelineEnv :=
  { xsd := .ok ()
    xml := { decodeProc := .ok ⟨⟨sampleInfNFe
               (str "NFe35250732409620000175550010000037471011544648")⟩⟩
             decodeNFe := .error .rootMismatch }
    sefaz := fun _ => .error .falhaConexao }

/-- Concrete pipeline run in which the parse succeeds but the identifier
matches neither the 47-character prefixed form nor the 44-character form, so
key derivation yields the empty string; the remote oracle answers normally. -/
def c8Env : NfePkg.PipelineEnv :=
  { xsd := .ok ()
    xml := { decodeProc := .ok ⟨⟨sampleInfNFe (str "bogus")⟩⟩
             decodeNFe := .error .rootMismatch }
    sefaz := fun _ => .ok ⟨false, str "217", str "NF-e nao consta na base"⟩ }

/-- Fixed remote oracle used by the C10 witness. -/
def c10Stub : List Char → Except NfePkg.RedeErr Sefaz.SefazStatus :=
  fun _ => .ok ⟨true, str "100", str "Autorizado o uso da NF-e"⟩

namespace Sefaz

/-!
Embedding of the trust-store construction of internal/sefaz
(src/unnamed/part_003 lines 33 to 109). The file system is abstracted:
a directory listing is a list of entries, each carrying its name, whether it
is a directory, and the outcome of reading and PEM-parsing it (none models a
read failure; a list of certificate tags models the certificates that
AppendCertsFromPEM extracts, with the empty list modelling a file in which no
certificate block parses, which makes AppendCertsFromPEM return false).
Certificates are abstract tags (Nat).
-/

/-- Directory entry as seen by loadCertsFromDir. -/
structure DirEntry where
  name : List Char
  isDir : Bool
  content : Option (List Nat)

/-- Error of loadCertsFromDir when the directory cannot be listed. -/
inductive DirErr where
  | readDirFailed
deriving DecidableEq

/-- Body of the scan loop of loadCertsFromDir (src/unnamed/part_003
lines 39 to 59): the accumulator carries the pool and the warning list. -/
def loadCertStep (acc : List Nat × List (List Char)) (e : DirEntry) :
    List Nat × List (List Char) :=
  if e.isDir || containsSub e.name (str "key.pem") then acc
  else if (str ".crt").isSuffixOf e.name || (str ".pem").isSuffixOf e.name then
    match e.content with
    | none => (acc.1, acc.2 ++ [e.name])
    | some certs =>
      if certs = [] then (acc.1, acc.2 ++ [e.name]) else (acc.1 ++ certs, acc.2)
  else acc

/-- Embedding of loadCertsFromDir (src/unnamed/part_003 lines 33 to 61):
fails only when the directory listing itself fails, otherwise folds the scan
over the entries, collecting warnings instead of failing. -/
def loadCertsFromDir (pool : List Nat) (listing : Option (List DirEntry)) :
    Except DirErr (List Nat × List (List Char)) :=
  match listing with
  | none => .error .readDirFailed
  | some entries => .ok (entries.foldl loadCertStep (pool, []))

/-- Resulting trust configuration of NewClient. -/
structure TrustModel where
  clientCert : Nat
  rootCAs : List Nat
  avisos : List (List Char)
deriving DecidableEq

/-- Errors of NewClient: the client key pair fails to load, or the
certificate directory cannot be scanned. -/
inductive ClientErr where
  | clientCertErr
  | certDirErr
deriving DecidableEq

/-- Embedding of NewClient (src/unnamed/part_003 lines 65 to 109): load the
client key pair (abstracted as an oracle, none meaning tls.LoadX509KeyPair
failed), start from the system pool or an empty pool when unavailable, then
scan the certificate directory. -/
def NewClient (keyPair : Option Nat) (systemPool : Option (List Nat))
    (listing : Option (List DirEntry)) : Except ClientErr TrustModel :=
  match keyPair with
  | none => .error .clientCertErr
  | some cert =>
    let caCertPool := match systemPool with
      | none => []
      | some pool => pool
    match loadCertsFromDir caCertPool listing with
    | .error _ => .error .certDirErr
    | .ok res => .ok ⟨cert, res.1, res.2⟩

end Sefaz

/-- The private-key file of a configuration whose key file name does not
contain the text key.pem: a PEM file holding only a key, so that no
certificate block parses from it. -/
def c7KeyFileEntry : Sefaz.DirEntry := ⟨str "private.pem", false, some []⟩

namespace GoStr

theorem charSize_of_ascii {c : Char} (h : c.toNat < 128) : charSize c = 1 := by
  simp [charSize, h]

theorem goLen_of_ascii {l : List Char} (h : ∀ c ∈ l, c.toNat < 128) :
    goLen l = l.length := by
  induction l with
  | nil => rfl
  | cons c rest ih =>
    have hc : charSize c = 1 := charSize_of_ascii (h c (List.mem_cons_self c rest))
    have : goLen rest = rest.length := ih fun x hx => h x (List.mem_cons_of_mem c hx)
    simp [goLen, hc] at this ⊢
    omega

theorem dgByte_of_digit {c : Char} (h : isDigitCh c = true) :
    dgByte c = digitVal c := by
  simp [isDigitCh] at h
  simp [dgByte, digitVal]
  omega

theorem digit_not_space {c : Char} (h : isDigitCh c = true) : goIsSpace c = false := by
  simp [isDigitCh] at h
  simp [goIsSpace]
  omega

theorem digit_ascii {c : Char} (h : isDigitCh c = true) : c.toNat < 128 := by
  simp [isDigitCh] at h
  omega

theorem dropWhile_of_all_false {p : Char → Bool} {l : List Char}
    (h : ∀ c ∈ l, p c = false) : l.dropWhile p = l := by
  cases l with
  | nil => rfl
  | cons a rest => simp [List.dropWhile, h a (List.mem_cons_self a rest)]

theorem trimSpace_of_digits {l : List Char} (h : ∀ c ∈ l, isDigitCh c = true) :
    trimSpace l = l := by
  have hns : ∀ c ∈ l, goIsSpace c = false := fun c hc => digit_not_space (h c hc)
  unfold trimSpace
  rw [dropWhile_of_all_false hns]
  rw [dropWhile_of_all_false (fun c hc => hns c (List.mem_reverse.mp hc))]
  exact List.reverse_reverse l

end GoStr

namespace SpecAlg

theorem somaLoop_eq_pesoSum (l : List Char) :
    ∀ (j s : Nat), (∀ c ∈ l, isDigitCh c = true) →
      NfePkg.somaLoop l (2 + j % 8) s = s + pesoSum l j := by
  induction l with
  | nil => intro j s _; simp [NfePkg.somaLoop, pesoSum]
  | cons c rest ih =>
    intro j s h
    have hmult : (if 2 + j % 8 + 1 > 9 then 2 else 2 + j % 8 + 1) = 2 + (j + 1) % 8 := by
      split <;> omega
    have hc : dgByte c = digitVal c :=
      dgByte_of_digit (h c (List.mem_cons_self c rest))
    have hrest : ∀ x ∈ rest, isDigitCh x = true :=
      fun x hx => h x (List.mem_cons_of_mem c hx)
    show NfePkg.somaLoop rest _ _ = _
    rw [hmult, ih (j + 1) (s + dgByte c * (2 + j % 8)) hrest, hc]
    simp [pesoSum]
    ring

end SpecAlg

namespace C1

open NfePkg SpecAlg

theorem charToNat_inj {c d : Char} (h : c.toNat = d.toNat) : c = d :=
  Char.eq_of_val_eq (UInt32.ext h)

theorem digitVal_inj {c d : Char} (hc : isDigitCh c = true)
    (hd : isDigitCh d = true) (h : digitVal c = digitVal d) : c = d := by
  simp [isDigitCh] at hc hd
  apply charToNat_inj
  simp [digitVal] at h
  omega

/-- The check-digit routine on a 44-character all-digit string succeeds exactly
when the last character carries the spec check digit of the first 43. -/
theorem validarDV_iff {l : List Char} (h1 : l.length = 44)
    (h2 : ∀ c ∈ l, isDigitCh c = true) :
    validarDigitoVerificador l = true ↔
      specCheckDigit (l.take 43) = digitVal (l.getD 43 ' ') := by
  have hascii : ∀ c ∈ l, c.toNat < 128 := fun c hc => digit_ascii (h2 c hc)
  have hlen : goLen l = 44 := by rw [goLen_of_ascii hascii, h1]
  have hdigits43 : ∀ c ∈ (l.take 43).reverse, isDigitCh c = true := by
    intro c hc
    exact h2 c (List.take_subset 43 l (List.mem_reverse.mp hc))
  have h43 : 43 < l.length := by omega
  have hdv : isDigitCh (l.getD 43 ' ') = true := by
    rw [List.getD_eq_getElem l ' ' h43]
    exact h2 _ (List.getElem_mem h43)
  have hsum : somaLoop (l.take 43).reverse 2 0 = pesoSum (l.take 43).reverse 0 := by
    have := somaLoop_eq_pesoSum (l.take 43).reverse 0 0 hdigits43
    simpa using this
  unfold validarDigitoVerificador
  rw [if_neg (by omega : ¬ goLen l ≠ 44)]
  simp only [hsum, dgByte_of_digit hdv]
  rw [show specCheckDigit (l.take 43) =
      (if pesoSum (l.take 43).reverse 0 % 11 = 0 ∨ pesoSum (l.take 43).reverse 0 % 11 = 1
       then 0 else 11 - pesoSum (l.take 43).reverse 0 % 11) from rfl]
  exact beq_iff_eq

end C1

/-- C1: for every string whose trimmed form is exactly 44 ASCII digits, the
access-key validator ValidarChaveAcesso succeeds if and only if the 44th digit
equals the modulo-11 check digit computed from the first 43 digits by the
stated algorithm (scan right to left, weights 2..9 cycling, remainder of the
weighted sum modulo 11, expected digit 0 when the remainder is 0 or 1, else 11
minus the remainder); and for any such valid key, replacing the last digit by
any different digit makes validation fail with the check-digit-mismatch error,
not a format error. -/
theorem c1_access_key_check_digit (s : List Char)
    (h1 : (trimSpace s).length = 44)
    (h2 : ∀ c ∈ trimSpace s, isDigitCh c = true) :
    (NfePkg.ValidarChaveAcesso s = .ok () ↔
      digitVal ((trimSpace s).getD 43 ' ') =
        SpecAlg.specCheckDigit ((trimSpace s).take 43))
    ∧ (∀ d, isDigitCh d = true → d ≠ (trimSpace s).getD 43 ' ' →
        NfePkg.ValidarChaveAcesso s = .ok () →
        NfePkg.ValidarChaveAcesso ((trimSpace s).take 43 ++ [d]) =
          .error .dvInvalido) := by
  have hascii : ∀ c ∈ trimSpace s, c.toNat < 128 := fun c hc => digit_ascii (h2 c hc)
  have hlen : goLen (trimSpace s) = 44 := by rw [goLen_of_ascii hascii, h1]
  have hany : (trimSpace s).any (fun ch => !isDigitCh ch) = false := by
    simp only [List.any_eq_false, Bool.not_eq_true']
    intro x hx
    simp [h2 x hx]
  have hmain : NfePkg.ValidarChaveAcesso s = .ok () ↔
      SpecAlg.specCheckDigit ((trimSpace s).take 43) =
        digitVal ((trimSpace s).getD 43 ' ') := by
    unfold NfePkg.ValidarChaveAcesso
    rw [if_neg (by omega : ¬ goLen (trimSpace s) ≠ 44), hany]
    rw [← C1.validarDV_iff h1 h2]
    cases hv : NfePkg.validarDigitoVerificador (trimSpace s) <;> simp [hv]
  constructor
  · rw [hmain, eq_comm]
  · intro d hd hne hok
    have hspec : SpecAlg.specCheckDigit ((trimSpace s).take 43) =
        digitVal ((trimSpace s).getD 43 ' ') := hmain.mp hok
    set t := trimSpace s with ht
    set l := t.take 43 ++ [d] with hl
    have htk : (t.take 43).length = 43 := by
      rw [List.length_take]; omega
    have hl1 : l.length = 44 := by
      rw [hl, List.length_append, htk]; rfl
    have hl2 : ∀ c ∈ l, isDigitCh c = true := by
      intro c hc
      rw [hl, List.mem_append] at hc
      rcases hc with hc | hc
      · exact h2 c (List.take_subset 43 t hc)
      · simp at hc; rw [hc]; exact hd
    have hltrim : trimSpace l = l := trimSpace_of_digits hl2
    have hlascii : ∀ c ∈ l, c.toNat < 128 := fun c hc => digit_ascii (hl2 c hc)
    have hllen : goLen l = 44 := by rw [goLen_of_ascii hlascii, hl1]
    have hlany : l.any (fun ch => !isDigitCh ch) = false := by
      simp only [List.any_eq_false, Bool.not_eq_true']
      intro x hx
      simp [hl2 x hx]
    have hltake : l.take 43 = t.take 43 := by
      rw [hl]
      have := List.take_left (t.take 43) [d]
      rwa [htk] at this
    have hlget : l.getD 43 ' ' = d := by
      rw [hl, List.getD_append_right _ _ _ _ (by omega : (t.take 43).length ≤ 43), htk]
      rfl
    have hdv43 : isDigitCh (t.getD 43 ' ') = true := by
      have h43 : 43 < t.length := by omega
      rw [List.getD_eq_getElem t ' ' h43]
      exact h2 _ (List.getElem_mem h43)
    have hvfalse : NfePkg.validarDigitoVerificador l = false := by
      rw [← Bool.not_eq_true]
      rw [C1.validarDV_iff hl1 hl2, hltake, hlget, hspec]
      intro hcontra
      exact hne (C1.digitVal_inj hd hdv43 (hcontra.symm))
    unfold NfePkg.ValidarChaveAcesso
    rw [hltrim]
    rw [if_neg (by omega : ¬ goLen l ≠ 44), hlany, hvfalse]
    rfl

/-- Witness for C1: the scenario key validates, and flipping its last digit
from 8 to 0 yields the check-digit-mismatch error. -/
theorem c1_access_key_check_digit_witness :
    NfePkg.ValidarChaveAcesso (str "35250732409620000175550010000037471011544648") = .ok ()
    ∧ NfePkg.ValidarChaveAcesso (str "35250732409620000175550010000037471011544640") =
        .error .dvInvalido := by
  have h := c1_access_key_check_digit (str "35250732409620000175550010000037471011544648")
    (by decide) (by decide)
  have hok : NfePkg.ValidarChaveAcesso (str "35250732409620000175550010000037471011544648") =
      .ok () := h.1.mpr (by decide)
  refine ⟨hok, ?_⟩
  have hflip := h.2 '0' (by decide) (by decide) hok
  have e : (trimSpace (str "35250732409620000175550010000037471011544648")).take 43 ++ ['0']
      = str "35250732409620000175550010000037471011544640" := by decide
  rwa [e] at hflip

/-- C2 counterexample: the claim says key derivation returns the empty string
whenever the input is neither a 47-character prefixed identifier nor exactly 44
digits, and returns a 44-digit input verbatim. Both parts fail on the code: the
pkg parser version returns a 44-character non-digit string verbatim, and the
internal helper version returns the empty string on a 44-digit input. -/
theorem c2_counterexample :
    NfePkg.ExtractChaveFromID (str "aaaaaaaaaaaaaaaaaaaaaaaaaaaaaaaaaaaaaaaaaaaa")
      = str "aaaaaaaaaaaaaaaaaaaaaaaaaaaaaaaaaaaaaaaaaaaa"
    ∧ str "aaaaaaaaaaaaaaaaaaaaaaaaaaaaaaaaaaaaaaaaaaaa" ≠ ([] : List Char)
    ∧ Validation.ExtractChaveFromID (str "12345678901234567890123456789012345678901234")
      = ([] : List Char)
    ∧ str "12345678901234567890123456789012345678901234" ≠ ([] : List Char) := by
  refine ⟨by decide, by decide, by decide, by decide⟩

/-- C2 amended: after trimming surrounding whitespace, both versions of
ExtractChaveFromID strip the first 3 characters when the string starts with the
NFe text and has total length 47 (so the 47-character scenario input derives
the expected 44-digit key under both); the pkg parser version additionally
returns any string of length exactly 44 verbatim, digit content not checked,
and the empty string otherwise; the internal helper version returns the empty
string in every other case, including when the input is already 44 digits. -/
theorem c2_extract_chave_amended :
    (∀ id : List Char, (str "NFe").isPrefixOf (trimSpace id) = true →
      goLen (trimSpace id) = 47 →
      NfePkg.ExtractChaveFromID id = (trimSpace id).drop 3
      ∧ Validation.ExtractChaveFromID id = (trimSpace id).drop 3)
    ∧ (∀ id : List Char, goLen (trimSpace id) = 44 →
      NfePkg.ExtractChaveFromID id = trimSpace id
      ∧ Validation.ExtractChaveFromID id = [])
    ∧ (∀ id : List Char, ¬ (str "NFe").isPrefixOf (trimSpace id) = true →
      goLen (trimSpace id) ≠ 44 →
      NfePkg.ExtractChaveFromID id = [] ∧ Validation.ExtractChaveFromID id = [])
    ∧ (∀ id : List Char, goLen (trimSpace id) ≠ 47 → goLen (trimSpace id) ≠ 44 →
      NfePkg.ExtractChaveFromID id = [] ∧ Validation.ExtractChaveFromID id = [])
    ∧ NfePkg.ExtractChaveFromID (str "NFe35250732409620000175550010000037471011544648")
        = str "35250732409620000175550010000037471011544648"
    ∧ Validation.ExtractChaveFromID (str "NFe35250732409620000175550010000037471011544648")
        = str "35250732409620000175550010000037471011544648" := by
  refine ⟨?_, ?_, ?_, ?_, by decide, by decide⟩
  · intro id hp h47
    unfold NfePkg.ExtractChaveFromID Validation.ExtractChaveFromID
    rw [if_pos ⟨hp, h47⟩, if_pos ⟨hp, h47⟩]
    exact ⟨rfl, rfl⟩
  · intro id h44
    unfold NfePkg.ExtractChaveFromID Validation.ExtractChaveFromID
    have hno47 : ¬ ((str "NFe").isPrefixOf (trimSpace id) = true ∧ goLen (trimSpace id) = 47) := by
      rintro ⟨-, h⟩; omega
    rw [if_neg hno47, if_neg hno47, if_pos h44]
    exact ⟨rfl, rfl⟩
  · intro id hp h44
    unfold NfePkg.ExtractChaveFromID Validation.ExtractChaveFromID
    have hno : ¬ ((str "NFe").isPrefixOf (trimSpace id) = true ∧ goLen (trimSpace id) = 47) := by
      rintro ⟨h, -⟩; exact hp h
    rw [if_neg hno, if_neg hno, if_neg h44]
    exact ⟨rfl, rfl⟩
  · intro id h47 h44
    unfold NfePkg.ExtractChaveFromID Validation.ExtractChaveFromID
    have hno : ¬ ((str "NFe").isPrefixOf (trimSpace id) = true ∧ goLen (trimSpace id) = 47) := by
      rintro ⟨-, h⟩; exact h47 h
    rw [if_neg hno, if_neg hno, if_neg h44]
    exact ⟨rfl, rfl⟩

/-- Witness for C2 amended: the length-44 clause applied to a concrete
44-digit identifier. -/
theorem c2_extract_chave_amended_witness :
    NfePkg.ExtractChaveFromID (str "35250732409620000175550010000037471011544648")
      = trimSpace (str "35250732409620000175550010000037471011544648")
    ∧ Validation.ExtractChaveFromID (str "35250732409620000175550010000037471011544648")
      = [] :=
  c2_extract_chave_amended.2.1 (str "35250732409620000175550010000037471011544648")
    (by decide)

/-- C3: for every decoded remote response the authorized flag is true exactly
when the decoded status code is 100 or 110; and the category predicates give:
100 authorized, 101 canceled and not rejected, 217 not found, and every code
whose leading character lies between 2 and 6 (code points 50 to 54) is a
generic rejection. -/
theorem c3_status_classification :
    (∀ body : List Char, (Sefaz.decodeResposta body).Autorizado = true ↔
      ((Sefaz.decodeResposta body).Codigo = str "100" ∨
        (Sefaz.decodeResposta body).Codigo = str "110"))
    ∧ (∀ m, NfePkg.StatusSefaz.IsAutorizado ⟨str "100", m⟩ = true)
    ∧ (∀ m, NfePkg.StatusSefaz.IsCancelado ⟨str "101", m⟩ = true
        ∧ NfePkg.StatusSefaz.IsRejeitado ⟨str "101", m⟩ = false)
    ∧ (∀ m, NfePkg.StatusSefaz.IsNaoEncontrado ⟨str "217", m⟩ = true)
    ∧ (∀ (c : Char) (rest m : List Char), 50 ≤ c.toNat → c.toNat ≤ 54 →
        NfePkg.StatusSefaz.IsRejeitado ⟨c :: rest, m⟩ = true) := by
  refine ⟨?_, ?_, ?_, ?_, ?_⟩
  · intro body
    simp only [Sefaz.decodeResposta]
    split
    · next h => simp [h]
    · next h => simp [h]
  · intro m
    simp [NfePkg.StatusSefaz.IsAutorizado, NfePkg.StatusAutorizado]
  · intro m
    constructor
    · simp [NfePkg.StatusSefaz.IsCancelado, NfePkg.StatusCancelado]
    · simp [NfePkg.StatusSefaz.IsRejeitado, NfePkg.StatusCancelado, str]
  · intro m
    simp [NfePkg.StatusSefaz.IsNaoEncontrado, NfePkg.StatusNaoEncontrado]
  · intro c rest m h1 h2
    simp [NfePkg.StatusSefaz.IsRejeitado]
    omega

/-- Witness for C3: the generic-rejection clause applied to the concrete code
305, whose leading character 3 lies in the range. -/
theorem c3_status_classification_witness :
    NfePkg.StatusSefaz.IsRejeitado ⟨str "305", str "Rejeicao"⟩ = true := by
  have h := c3_status_classification.2.2.2.2 '3' (str "05") (str "Rejeicao")
    (by decide) (by decide)
  simpa [str] using h

/-- C4: ParseNFe returns the enveloped decoding exactly when the enveloped
decode succeeds and the inner identifier is non-empty; otherwise it attempts
the bare shape, turning a structural error into the malformed error, an empty
identifier into the missing-identifier error, and a good decode into its
result; the two cases are exhaustive. -/
theorem c4_parse_two_shape (inp : Validation.XmlInput) :
    (∀ proc, inp.decodeProc = .ok proc → proc.NFe.InfNFe.ID ≠ [] →
      Validation.ParseNFe inp = .ok proc.NFe)
    ∧ (Validation.envelopedRejected inp → ∀ e, inp.decodeNFe = .error e →
      Validation.ParseNFe inp = .error (.malformed e))
    ∧ (Validation.envelopedRejected inp → ∀ nfe, inp.decodeNFe = .ok nfe →
      nfe.InfNFe.ID = [] → Validation.ParseNFe inp = .error .missingIdentifier)
    ∧ (Validation.envelopedRejected inp → ∀ nfe, inp.decodeNFe = .ok nfe →
      nfe.InfNFe.ID ≠ [] → Validation.ParseNFe inp = .ok nfe)
    ∧ ((∃ proc, inp.decodeProc = .ok proc ∧ proc.NFe.InfNFe.ID ≠ []) ∨
        Validation.envelopedRejected inp) := by
  refine ⟨?_, ?_, ?_, ?_, ?_⟩
  · intro proc h hne
    simp [Validation.ParseNFe, h, hne]
  · intro henv e he
    rcases henv with ⟨e2, hp⟩ | ⟨proc, hp, hid⟩
    · simp [Validation.ParseNFe, Validation.parseNFeBare, hp, he]
    · simp [Validation.ParseNFe, Validation.parseNFeBare, hp, hid, he]
  · intro henv nfe hn hid
    rcases henv with ⟨e2, hp⟩ | ⟨proc, hp, hid2⟩
    · simp [Validation.ParseNFe, Validation.parseNFeBare, hp, hn, hid]
    · simp [Validation.ParseNFe, Validation.parseNFeBare, hp, hid2, hn, hid]
  · intro henv nfe hn hne
    rcases henv with ⟨e2, hp⟩ | ⟨proc, hp, hid2⟩
    · simp [Validation.ParseNFe, Validation.parseNFeBare, hp, hn, hne]
    · simp [Validation.ParseNFe, Validation.parseNFeBare, hp, hid2, hn, hne]
  · cases hp : inp.decodeProc with
    | error e => exact Or.inr (Or.inl ⟨e, hp⟩)
    | ok proc =>
      by_cases hid : proc.NFe.InfNFe.ID = []
      · exact Or.inr (Or.inr ⟨proc, hp, hid⟩)
      · exact Or.inl ⟨proc, rfl, hid⟩

/-- Witness for C4: the enveloped clause applied to the concrete input. -/
theorem c4_parse_two_shape_witness :
    Validation.ParseNFe c4Inp =
      .ok ⟨sampleInfNFe (str "NFe35250732409620000175550010000037471011544648")⟩ :=
  (c4_parse_two_shape c4Inp).1
    ⟨⟨sampleInfNFe (str "NFe35250732409620000175550010000037471011544648")⟩⟩ rfl (by decide)

/-- C9 counterexample: on the enveloped shape with an empty identifier, the
parse fails with the malformed error, not with the missing-identifier error
the claim requires for both shapes. -/
theorem c9_counterexample :
    Validation.ParseNFe c9Inp = .error (.malformed .rootMismatch)
    ∧ Validation.ParseNFe c9Inp ≠ .error .missingIdentifier := by
  have h : Validation.ParseNFe c9Inp = .error (.malformed .rootMismatch) := rfl
  refine ⟨h, ?_⟩
  rw [h]
  simp

/-- C9 amended: a document whose identifier attribute is present but empty
fails with the missing-identifier error in the bare shape (whenever the
enveloped attempt was rejected); in the enveloped shape the empty identifier
makes the enveloped attempt fail, and the bare fallback then reports the
malformed error from the root-element mismatch. -/
theorem c9_empty_identifier_amended :
    (∀ (inp : Validation.XmlInput) (nfe : Validation.NFeEnvelope),
      Validation.envelopedRejected inp → inp.decodeNFe = .ok nfe →
      nfe.InfNFe.ID = [] → Validation.ParseNFe inp = .error .missingIdentifier)
    ∧ (∀ (inp : Validation.XmlInput) (proc : Validation.ProcNFe)
        (e : Validation.DecodeErr),
      inp.decodeProc = .ok proc → proc.NFe.InfNFe.ID = [] →
      inp.decodeNFe = .error e → Validation.ParseNFe inp = .error (.malformed e)) := by
  constructor
  · intro inp nfe henv hn hid
    rcases henv with ⟨e2, hp⟩ | ⟨proc, hp, hid2⟩
    · simp [Validation.ParseNFe, Validation.parseNFeBare, hp, hn, hid]
    · simp [Validation.ParseNFe, Validation.parseNFeBare, hp, hid2, hn, hid]
  · intro inp proc e hp hid he
    simp [Validation.ParseNFe, Validation.parseNFeBare, hp, hid, he]

/-- Witness for C9 amended: the enveloped clause applied to the concrete
empty-identifier input. -/
theorem c9_empty_identifier_amended_witness :
    Validation.ParseNFe c9Inp = .error (.malformed .rootMismatch) :=
  c9_empty_identifier_amended.2 c9Inp ⟨⟨sampleInfNFe (str "")⟩⟩ .rootMismatch
    rfl (by decide) rfl

/-- C5: when the schema check and the parse succeed, the key derives, and the
remote query fails, the result still carries the schema-valid flag, the
derived key and the parsed fields, with the remote error attached and the
status left at its zero value; when the schema check fails, the result carries
only the schema-invalid flag and the schema error, with no parsed fields, no
status and no remote query. -/
theorem c5_pipeline_never_discards (env : NfePkg.PipelineEnv) :
    (∀ (nfe : Validation.NFeEnvelope) (r : NfePkg.RedeErr),
      env.xsd = .ok () → Validation.ParseNFe env.xml = .ok nfe →
      Validation.ExtractChaveFromID nfe.InfNFe.ID ≠ [] →
      env.sefaz (Validation.ExtractChaveFromID nfe.InfNFe.ID) = .error r →
      NfePkg.ValidarXMLBytes env =
        ({ ChaveAcesso := Validation.ExtractChaveFromID nfe.InfNFe.ID
           ValidoXSD := true
           Autorizado := false
           Status := ⟨[], []⟩
           DadosNFe := some (NfePkg.convertInternalNFeData nfe)
           Erro := some .falhaConsultaSefaz },
         some (Validation.ExtractChaveFromID nfe.InfNFe.ID)))
    ∧ (∀ e : NfePkg.XsdErr, env.xsd = .error e →
      NfePkg.ValidarXMLBytes env =
        ({ ChaveAcesso := []
           ValidoXSD := false
           Autorizado := false
           Status := ⟨[], []⟩
           DadosNFe := none
           Erro := some .falhaXSD }, none)) := by
  constructor
  · intro nfe r hx hp hne hs
    simp [NfePkg.ValidarXMLBytes, hx, hp, hne, hs]
  · intro e hx
    simp [NfePkg.ValidarXMLBytes, hx]

/-- Witness for C5: the remote-failure clause applied to the concrete run. -/
theorem c5_pipeline_never_discards_witness :
    NfePkg.ValidarXMLBytes c5Env =
      ({ ChaveAcesso := Validation.ExtractChaveFromID
           (str "NFe35250732409620000175550010000037471011544648")
         ValidoXSD := true
         Autorizado := false
         Status := ⟨[], []⟩
         DadosNFe := some (NfePkg.convertInternalNFeData
           ⟨sampleInfNFe (str "NFe35250732409620000175550010000037471011544648")⟩)
         Erro := some .falhaConsultaSefaz },
       some (Validation.ExtractChaveFromID
         (str "NFe35250732409620000175550010000037471011544648"))) :=
  (c5_pipeline_never_discards c5Env).1
    ⟨sampleInfNFe (str "NFe35250732409620000175550010000037471011544648")⟩
    .falhaConexao rfl rfl (by decide) rfl

/-- C8 counterexample: with an empty derived key the pipeline does not stop;
the ghost trace shows the remote query was attempted, with the raw identifier
attribute passed as the key. -/
theorem c8_counterexample :
    (NfePkg.ValidarXMLBytes c8Env).2 = some (str "bogus")
    ∧ (NfePkg.ValidarXMLBytes c8Env).2 ≠ none := by
  have h : (NfePkg.ValidarXMLBytes c8Env).2 = some (str "bogus") := rfl
  refine ⟨h, ?_⟩
  rw [h]
  simp

/-- C8 amended: when parsing succeeds but the derived access key is empty, the
pipeline substitutes the raw identifier attribute for the key and still
attempts the remote query, passing the raw identifier; the parsed fields are
present in the result and the result key is the raw identifier. -/
theorem c8_empty_key_amended (env : NfePkg.PipelineEnv)
    (nfe : Validation.NFeEnvelope) :
    env.xsd = .ok () → Validation.ParseNFe env.xml = .ok nfe →
    Validation.ExtractChaveFromID nfe.InfNFe.ID = [] →
    (NfePkg.ValidarXMLBytes env).2 = some nfe.InfNFe.ID
    ∧ (NfePkg.ValidarXMLBytes env).1.ChaveAcesso = nfe.InfNFe.ID
    ∧ (NfePkg.ValidarXMLBytes env).1.DadosNFe =
        some (NfePkg.convertInternalNFeData nfe) := by
  intro hx hp hext
  cases hs : env.sefaz nfe.InfNFe.ID with
  | error r => simp [NfePkg.ValidarXMLBytes, hx, hp, hext, hs]
  | ok st => simp [NfePkg.ValidarXMLBytes, hx, hp, hext, hs]

/-- Witness for C8 amended: the concrete run with the 5-character identifier. -/
theorem c8_empty_key_amended_witness :
    (NfePkg.ValidarXMLBytes c8Env).2 = some (str "bogus")
    ∧ (NfePkg.ValidarXMLBytes c8Env).1.ChaveAcesso = str "bogus"
    ∧ (NfePkg.ValidarXMLBytes c8Env).1.DadosNFe =
        some (NfePkg.convertInternalNFeData ⟨sampleInfNFe (str "bogus")⟩) :=
  c8_empty_key_amended c8Env ⟨sampleInfNFe (str "bogus")⟩ rfl rfl (by decide)

/-- C10: the key-only entry point ValidarChave reaches the remote query
exactly when the digit-only projection of the input has length 44, and the
string sent to the query is the original input, separators included, not the
projection; any other input is rejected with the format error before any
query. -/
theorem c10_validar_chave_format_and_forward
    (sefaz : List Char → Except NfePkg.RedeErr Sefaz.SefazStatus)
    (chave : List Char) :
    (goLen (Validation.OnlyDigits chave) = 44 →
      (NfePkg.ValidarChave sefaz chave).2 = some chave
      ∧ (NfePkg.ValidarChave sefaz chave).1 ≠ .error .formatoInvalido)
    ∧ (goLen (Validation.OnlyDigits chave) ≠ 44 →
      NfePkg.ValidarChave sefaz chave = (.error .formatoInvalido, none))
    ∧ (goLen (Validation.OnlyDigits chave) = 44 →
      chave ≠ Validation.OnlyDigits chave →
      (NfePkg.ValidarChave sefaz chave).2 ≠ some (Validation.OnlyDigits chave)) := by
  refine ⟨?_, ?_, ?_⟩
  · intro h44
    cases hs : sefaz chave with
    | error r => simp [NfePkg.ValidarChave, h44, hs]
    | ok st => simp [NfePkg.ValidarChave, h44, hs]
  · intro h
    simp [NfePkg.ValidarChave, h]
  · intro h44 hne
    have htr : (NfePkg.ValidarChave sefaz chave).2 = some chave := by
      cases hs : sefaz chave with
      | error r => simp [NfePkg.ValidarChave, h44, hs]
      | ok st => simp [NfePkg.ValidarChave, h44, hs]
    rw [htr]
    simp only [ne_eq, Option.some.injEq]
    exact hne

/-- Witness for C10: an input with space separators around 44 digits passes
the format check and is forwarded verbatim, not as its digit projection. -/
theorem c10_validar_chave_witness :
    (NfePkg.ValidarChave c10Stub
      (str "3525 0732 4096 2000 0175 5500 1000 0037 4710 1154 4648")).2
      = some (str "3525 0732 4096 2000 0175 5500 1000 0037 4710 1154 4648")
    ∧ (NfePkg.ValidarChave c10Stub
      (str "3525 0732 4096 2000 0175 5500 1000 0037 4710 1154 4648")).2
      ≠ some (Validation.OnlyDigits
        (str "3525 0732 4096 2000 0175 5500 1000 0037 4710 1154 4648")) := by
  have h := c10_validar_chave_format_and_forward c10Stub
    (str "3525 0732 4096 2000 0175 5500 1000 0037 4710 1154 4648")
  exact ⟨(h.1 (by decide)).1, h.2.2 (by decide) (by decide)⟩

namespace Sefaz

theorem splitGo_ne_nil (pat : List Char) (s : List Char) : splitGo pat s ≠ [] := by
  cases s with
  | nil => simp [splitGo]
  | cons c rest =>
    unfold splitGo
    split
    · simp
    · split <;> simp

theorem containsSub_cons (c : Char) (rest pat : List Char) :
    containsSub (c :: rest) pat =
      (pat.isPrefixOf (c :: rest) || containsSub rest pat) := by
  simp [containsSub]

theorem splitGo_length_of_contains (pat : List Char) (hp : pat ≠ []) :
    ∀ s : List Char, containsSub s pat = true → (splitGo pat s).length > 1 := by
  intro s
  induction s with
  | nil =>
    intro h
    cases pat with
    | nil => exact absurd rfl hp
    | cons p pt => simp [containsSub] at h
  | cons c rest ih =>
    intro h
    rw [containsSub_cons, Bool.or_eq_true] at h
    by_cases hpre : pat.isPrefixOf (c :: rest) = true
    · unfold splitGo
      rw [if_pos ⟨hp, hpre⟩]
      have hne := splitGo_ne_nil pat ((c :: rest).drop pat.length)
      have hpos := List.length_pos.mpr hne
      simp only [List.length_cons]
      omega
    · have hcr : containsSub rest pat = true := by
        rcases h with h | h
        · exact absurd h hpre
        · exact h
      unfold splitGo
      rw [if_neg (fun hcond => hpre hcond.2)]
      have hlen := ih hcr
      cases hsp : splitGo pat rest with
      | nil => exact absurd hsp (splitGo_ne_nil pat rest)
      | cons seg segs =>
        rw [hsp] at hlen
        simp only [List.length_cons] at hlen ⊢
        omega

end Sefaz

/-- C6 counterexample: on a body that carries a reason message but no status
code, the decoder returns the sentinel code 999 together with the extracted
message, not the fixed response-not-understood message the claim requires. -/
theorem c6_counterexample :
    Sefaz.decodeResposta (str "<xMotivo>ok</xMotivo>") =
      { Autorizado := false, Codigo := str "999", Mensagem := str "ok" }
    ∧ str "ok" ≠ str "Resposta da SEFAZ não parseada." := by
  constructor
  · rfl
  · decide

/-- C6 amended: the decoder first applies the precise pattern matches: a
status-code match fixes the code and a reason-message match fixes the message;
when the reason-message pattern does not match but the opening marker is
present, the message is the substring split between the first opening marker
and the following closing marker; when the status code cannot be found the
code defaults to the sentinel 999, while the message falls back to the fixed
response-not-understood string only when no reason message can be extracted
either; the call never fails. The scenario body decodes to code 100, the
authorized message, and the authorized flag set. -/
theorem c6_decode_resposta_amended :
    (∀ body r, Sefaz.findCStat body = some r →
      (Sefaz.decodeResposta body).Codigo = r)
    ∧ (∀ body m, Sefaz.findXMotivo body = some m →
      (Sefaz.decodeResposta body).Mensagem = m)
    ∧ (∀ body, Sefaz.findCStat body = none →
      (Sefaz.decodeResposta body).Codigo = str "999")
    ∧ (∀ body, Sefaz.findXMotivo body = none →
      Sefaz.containsSub body (str "<xMotivo>") = true →
      (Sefaz.decodeResposta body).Mensagem =
        (Sefaz.splitGo (str "</xMotivo>")
          ((Sefaz.splitGo (str "<xMotivo>") body).getD 1 [])).getD 0 [])
    ∧ (∀ body, Sefaz.findXMotivo body = none →
      Sefaz.containsSub body (str "<xMotivo>") = false →
      (Sefaz.decodeResposta body).Mensagem = str "Resposta da SEFAZ não parseada.")
    ∧ Sefaz.decodeResposta
        (str "<cStat>100</cStat><xMotivo>Autorizado o uso da NF-e</xMotivo>") =
      { Autorizado := true, Codigo := str "100"
        Mensagem := str "Autorizado o uso da NF-e" } := by
  refine ⟨?_, ?_, ?_, ?_, ?_, by rfl⟩
  · intro body r h
    simp [Sefaz.decodeResposta, h]
  · intro body m h
    simp [Sefaz.decodeResposta, h]
  · intro body h
    simp [Sefaz.decodeResposta, h]
  · intro body hm hc
    have hparts := Sefaz.splitGo_length_of_contains (str "<xMotivo>") (by decide) body hc
    simp [Sefaz.decodeResposta, hm, hc, hparts]
  · intro body hm hc
    simp [Sefaz.decodeResposta, hm, hc]

/-- Witness for C6 amended: the fallback clause applied to a body whose reason
message spans a newline, which defeats the pattern match but not the
substring split. -/
theorem c6_decode_resposta_amended_witness :
    (Sefaz.decodeResposta (str "<xMotivo>a\nb</xMotivo>")).Mensagem =
      (Sefaz.splitGo (str "</xMotivo>")
        ((Sefaz.splitGo (str "<xMotivo>") (str "<xMotivo>a\nb</xMotivo>")).getD 1 [])).getD 0 [] :=
  c6_decode_resposta_amended.2.2.2.1 (str "<xMotivo>a\nb</xMotivo>")
    (by decide) (by decide)

/-- C7 counterexample: the scan does not skip the private-key file when its
name does not contain the literal key.pem; the file private.pem (the
configured key file) is attempted and produces a parse warning, refuting the
claim that the private-key file is skipped. -/
theorem c7_counterexample :
    Sefaz.loadCertsFromDir [] (some [c7KeyFileEntry]) =
      .ok ([], [str "private.pem"])
    ∧ [str "private.pem"] ≠ ([] : List (List Char)) := by
  constructor
  · rfl
  · simp

/-- C7 amended: the scan skips directory entries and any file whose name
contains the literal key.pem (the private-key file under the default naming;
a differently named key file with a recognised extension is attempted and
merely produces a warning); only files ending in .crt or .pem are attempted;
an unreadable or unparsable file adds a warning and never fails the scan; the
scan of a listable directory always succeeds; the build fails exactly when
the directory cannot be listed or the client key pair cannot be loaded; and
the scenario directory of one valid root certificate and one corrupted file
builds a pool holding the valid certificate with one warning. -/
theorem c7_trust_store_amended :
    (∀ (acc : List Nat × List (List Char)) (e : Sefaz.DirEntry), e.isDir = true →
      Sefaz.loadCertStep acc e = acc)
    ∧ (∀ (acc : List Nat × List (List Char)) (e : Sefaz.DirEntry),
      Sefaz.containsSub e.name (str "key.pem") = true →
      Sefaz.loadCertStep acc e = acc)
    ∧ (∀ (acc : List Nat × List (List Char)) (e : Sefaz.DirEntry),
      (str ".crt").isSuffixOf e.name = false → (str ".pem").isSuffixOf e.name = false →
      Sefaz.loadCertStep acc e = acc)
    ∧ (∀ (acc : List Nat × List (List Char)) (e : Sefaz.DirEntry), e.isDir = false →
      Sefaz.containsSub e.name (str "key.pem") = false →
      ((str ".crt").isSuffixOf e.name = true ∨ (str ".pem").isSuffixOf e.name = true) →
      e.content = none →
      Sefaz.loadCertStep acc e = (acc.1, acc.2 ++ [e.name]))
    ∧ (∀ (pool : List Nat) (entries : List Sefaz.DirEntry),
      ∃ res, Sefaz.loadCertsFromDir pool (some entries) = .ok res)
    ∧ (∀ (kp : Option Nat) (sp : Option (List Nat))
        (lst : Option (List Sefaz.DirEntry)),
      (∃ err, Sefaz.NewClient kp sp lst = .error err) ↔ (kp = none ∨ lst = none))
    ∧ Sefaz.loadCertsFromDir []
        (some [⟨str "raiz.crt", false, some [7]⟩, ⟨str "corrompido.pem", false, some []⟩])
      = .ok ([7], [str "corrompido.pem"]) := by
  refine ⟨?_, ?_, ?_, ?_, ?_, ?_, by rfl⟩
  · intro acc e h
    simp [Sefaz.loadCertStep, h]
  · intro acc e h
    simp [Sefaz.loadCertStep, h]
  · intro acc e h1 h2
    simp [Sefaz.loadCertStep, h1, h2]
  · intro acc e hd hk hext hc
    rcases hext with h | h <;> simp [Sefaz.loadCertStep, hd, hk, h, hc]
  · intro pool entries
    exact ⟨entries.foldl Sefaz.loadCertStep (pool, []), rfl⟩
  · intro kp sp lst
    constructor
    · rintro ⟨err, h⟩
      cases kp with
      | none => exact Or.inl rfl
      | some cert =>
        cases lst with
        | none => exact Or.inr rfl
        | some entries =>
          simp [Sefaz.NewClient, Sefaz.loadCertsFromDir] at h
    · rintro (h | h)
      · rw [h]
        exact ⟨.clientCertErr, rfl⟩
      · rw [h]
        cases kp with
        | none => exact ⟨.clientCertErr, rfl⟩
        | some cert => exact ⟨.certDirErr, rfl⟩

/-- Witness for C7 amended: an unreadable certificate file yields a warning
and leaves the pool unchanged. -/
theorem c7_trust_store_amended_witness :
    Sefaz.loadCertStep (([], []) : List Nat × List (List Char))
      ⟨str "ca.pem", false, none⟩ = ([], [str "ca.pem"]) :=
  c7_trust_store_amended.2.2.2.1 ([], []) ⟨str "ca.pem", false, none⟩ rfl
    (by decide) (Or.inr (by decide)) rfl
